import Mathlib

/-!
Verification of the BudgetBakers Wallet Home Assistant integration
(`custom_components/budgetbakers_wallet`): a shallow embedding in Lean 4 of
the API client (`api.py`), the data coordinator (`coordinator.py`) and the
sensor aggregation (`sensor.py`), together with theorems settling the
specification's claims about them.

JSON payloads handled by the Python code are modelled by `PyVal`; Python
dictionaries by association lists over string keys.  Machine floats are
modelled by exact rationals (`ℚ`).
-/

namespace BudgetBakers

/-- A Python/JSON value as manipulated by the integration: `None`, booleans,
numbers (int and float merged into `ℚ`), strings, lists and dicts. -/
inductive PyVal where
  | none : PyVal
  | bool (b : Bool) : PyVal
  | num (q : ℚ) : PyVal
  | str (s : String) : PyVal
  | list (xs : List PyVal) : PyVal
  | dict (d : List (String × PyVal)) : PyVal

/-- A Python dict with string keys, as an association list (keys unique in
practice; lookup takes the first binding, as a dict would). -/
abbrev Dict := List (String × PyVal)

/-- `d.get(k)` on a Python dict: `some v` when the key is present, `none`
(Python `None`) when absent. -/
def dget (d : Dict) (k : String) : Option PyVal :=
  (d.find? (fun p => p.1 = k)).map (fun p => p.2)

/-- `d.get(k, default)` on a Python dict. -/
def dgetD (d : Dict) (k : String) (v : PyVal) : PyVal :=
  (dget d k).getD v

/-- Python truthiness (`bool(v)`): `None`, `False`, zero, the empty string
and empty containers are falsy; everything else is truthy. -/
def truthy : PyVal → Bool
  | .none => false
  | .bool b => b
  | .num q => q != 0
  | .str s => s ≠ ""
  | .list xs => !xs.isEmpty
  | .dict d => !d.isEmpty

/-- Python equality of a value against a string literal (`v == "lit"`):
true only for an equal string, false for every other type (no error). -/
def pyEqStr (v : Option PyVal) (s : String) : Bool :=
  match v with
  | some (.str t) => t = s
  | _ => false

/-! ## Aggregator: active-account selection (`api.py`, lines 64-66)

`get_last_week_transactions_all_active_accounts` computes

    active_accounts = [acc for acc in accounts if not bool(acc.get("archived", False))]
    active_account_ids = [acc["id"] for acc in active_accounts if acc.get("id")]
-/

/-- `api.py` line 65: keep the accounts whose `archived` field
(defaulting to `False` when absent) is falsy. -/
def activeAccounts (accounts : List Dict) : List Dict :=
  accounts.filter (fun acc => !truthy (dgetD acc "archived" (.bool false)))

/-- `api.py` line 66: ids of the active accounts, in order, keeping an
account only when `acc.get("id")` is truthy (so missing and falsy ids are
dropped). -/
def activeAccountIds (accounts : List Dict) : List PyVal :=
  (activeAccounts accounts).filterMap (fun acc =>
    match dget acc "id" with
    | some v => if truthy v then some v else Option.none
    | Option.none => Option.none)

/-- The value object returned by a fetch (`api.py`, `WalletFetchResult`). -/
structure WalletFetchResult where
  transactions : List Dict
  account_count : Nat
  active_account_ids : List PyVal
  requests_made : Nat

/-- `api.py` lines 82-87: the `WalletFetchResult` literal built at the end
of the fetch, with `account_count = len(active_account_ids)`. -/
def buildFetchResult (txs : List Dict) (ids : List PyVal) (reqs : Nat) :
    WalletFetchResult :=
  { transactions := txs
    account_count := ids.length
    active_account_ids := ids
    requests_made := reqs }

/-- The spec's description of the same computation, written as one pass:
for each account in discovery order, skip it when its `archived` field is
truthy, otherwise emit its id provided the id is present and truthy. -/
def activeAccountIdsSpec (accounts : List Dict) : List PyVal :=
  accounts.filterMap (fun acc =>
    if truthy (dgetD acc "archived" (.bool false)) then Option.none
    else
      match dget acc "id" with
      | some v => if truthy v then some v else Option.none
      | Option.none => Option.none)

/-- Extraction of an account's id alone (used to state order preservation:
the computed ids form a subsequence of all ids in discovery order). -/
def idOf (acc : Dict) : Option PyVal :=
  match dget acc "id" with
  | some v => if truthy v then some v else Option.none
  | Option.none => Option.none

theorem activeAccountIds_eq_spec (accounts : List Dict) :
    activeAccountIds accounts = activeAccountIdsSpec accounts := by
  induction accounts with
  | nil => rfl
  | cons acc rest ih =>
    by_cases h : truthy (dgetD acc "archived" (.bool false))
    · simp [activeAccountIds, activeAccounts, activeAccountIdsSpec,
        List.filter_cons, List.filterMap_cons, h] at ih ⊢
      exact ih
    · simp [activeAccountIds, activeAccounts, activeAccountIdsSpec,
        List.filter_cons, List.filterMap_cons, h] at ih ⊢
      cases dget acc "id" with
      | none => simpa using ih
      | some v =>
        by_cases hv : truthy v <;> simp [hv] <;> simpa using ih

theorem activeAccountIds_sublist_ids (accounts : List Dict) :
    (activeAccountIds accounts).Sublist (accounts.filterMap idOf) := by
  unfold activeAccountIds idOf
  exact List.Sublist.filterMap _ (List.filter_sublist accounts)

/-- C2: `active_account_ids` drops every account whose `archived` is
truthy, keeps truthy ids in discovery order, drops missing/falsy ids, and
`account_count` is its length. -/
theorem c2_active_account_ids_spec (accounts : List Dict)
    (txs : List Dict) (reqs : Nat) :
    activeAccountIds accounts = activeAccountIdsSpec accounts ∧
    (activeAccountIds accounts).Sublist (accounts.filterMap idOf) ∧
    (buildFetchResult txs (activeAccountIds accounts) reqs).account_count =
      (activeAccountIds accounts).length :=
  ⟨activeAccountIds_eq_spec accounts, activeAccountIds_sublist_ids accounts, rfl⟩

/-! ## Duplicate account ids (claim C9)

`api.py` performs no deduplication: line 66 is a plain comprehension over
the fetched account list, so an id returned twice by the upstream endpoint
appears twice in `active_account_ids`. -/

/-- An upstream account list in which the same id is returned twice. -/
def dupAccounts : List Dict :=
  [[("id", PyVal.str "A")], [("id", PyVal.str "A")]]

/-- C9 counterexample: on `dupAccounts` the code produces
`["A", "A"]`, which contains a duplicate, refuting the claim that
`active_account_ids` never contains duplicates. -/
theorem c9_counterexample :
    activeAccountIds dupAccounts = [PyVal.str "A", PyVal.str "A"] ∧
    ¬ (activeAccountIds dupAccounts).Nodup := by
  have he : activeAccountIds dupAccounts = [PyVal.str "A", PyVal.str "A"] := rfl
  refine ⟨he, fun h => ?_⟩
  rw [he] at h
  exact (List.nodup_cons.mp h).1 (List.mem_singleton.mpr rfl)

/-- C9 (amended): `active_account_ids` is duplicate-free whenever the
upstream account sequence itself carries no duplicate (truthy) id; the code
performs no deduplication of its own. -/
theorem c9_nodup_of_upstream_nodup (accounts : List Dict)
    (h : (accounts.filterMap idOf).Nodup) :
    (activeAccountIds accounts).Nodup :=
  List.Nodup.sublist (activeAccountIds_sublist_ids accounts) h

/-- Account list used to witness `c9_nodup_of_upstream_nodup`. -/
def c9WitnessAccounts : List Dict :=
  [[("id", PyVal.str "A")],
   [("id", PyVal.str "B"), ("archived", PyVal.bool true)],
   [("archived", PyVal.bool false)]]

theorem c9_witness :
    (c9WitnessAccounts.filterMap idOf).Nodup ∧
    (activeAccountIds c9WitnessAccounts).Nodup := by
  have h : (c9WitnessAccounts.filterMap idOf).Nodup := by
    have he : c9WitnessAccounts.filterMap idOf =
        [PyVal.str "A", PyVal.str "B"] := rfl
    rw [he]
    simp
  exact ⟨h, c9_nodup_of_upstream_nodup c9WitnessAccounts h⟩

/-! ## Sorting the merged transaction list (claim C5)

`api.py` line 80:

    all_transactions.sort(key=lambda item: item.get("recordDate", ""), reverse=True)

Python's `list.sort` is a stable sort, and `reverse=True` reverses the key
comparison without disturbing the relative order of equal keys.  A stable
descending-by-key sort is extensionally unique (it is determined by being a
permutation, sorted, and key-stable), so it is embedded here as a stable
insertion sort by the same key. -/

/-- The sort key of api.py line 80: the `recordDate` value, defaulting to
the empty string when absent.  (A present non-string value would make the
mixed-type comparison raise in Python; theorems about the sort therefore
carry the `stringDateKeys` hypothesis.) -/
def recordDateKey (t : Dict) : String :=
  match dget t "recordDate" with
  | some (.str s) => s
  | some _ => ""
  | Option.none => ""

/-- Checks that every present `recordDate` value in the list is a string,
so that the Python comparison underlying the sort is defined. -/
def stringDateKeys (ts : List Dict) : Bool :=
  ts.all (fun t =>
    match dget t "recordDate" with
    | some (.str _) => true
    | some _ => false
    | Option.none => true)

/-- Insert `x` before the first element whose key is `≤` its own key:
elements with a strictly greater key stay in front, so among equal keys the
newly inserted (originally earlier) element comes first. -/
def insertDescBy (key : α → String) (x : α) : List α → List α
  | [] => [x]
  | y :: ys => if key x < key y then y :: insertDescBy key x ys else x :: y :: ys

/-- Stable insertion sort, descending by `key`. -/
def sortByKeyDesc (key : α → String) : List α → List α
  | [] => []
  | x :: xs => insertDescBy key x (sortByKeyDesc key xs)

/-- The in-place sort of api.py line 80, as a function. -/
def sortTransactionsDesc (ts : List Dict) : List Dict :=
  sortByKeyDesc recordDateKey ts

theorem insertDescBy_perm (key : α → String) (x : α) (l : List α) :
    (insertDescBy key x l).Perm (x :: l) := by
  induction l with
  | nil => exact List.Perm.refl _
  | cons y ys ih =>
    by_cases h : key x < key y
    · simp only [insertDescBy, if_pos h]
      exact (ih.cons y).trans (List.Perm.swap x y ys)
    · simp only [insertDescBy, if_neg h]
      exact List.Perm.refl _

theorem sortByKeyDesc_perm (key : α → String) (l : List α) :
    (sortByKeyDesc key l).Perm l := by
  induction l with
  | nil => exact List.Perm.refl _
  | cons x xs ih =>
    exact (insertDescBy_perm key x (sortByKeyDesc key xs)).trans (ih.cons x)

theorem insertDescBy_sorted (key : α → String) (x : α) (l : List α)
    (h : l.Pairwise (fun a b => key b ≤ key a)) :
    (insertDescBy key x l).Pairwise (fun a b => key b ≤ key a) := by
  induction l with
  | nil => simp [insertDescBy]
  | cons y ys ih =>
    rcases List.pairwise_cons.mp h with ⟨hy, hys⟩
    by_cases hxy : key x < key y
    · simp only [insertDescBy, if_pos hxy]
      refine List.pairwise_cons.mpr ⟨?_, ih hys⟩
      intro z hz
      have hz' := (insertDescBy_perm key x ys).mem_iff.mp hz
      rcases List.mem_cons.mp hz' with rfl | hzys
      · exact le_of_lt hxy
      · exact hy z hzys
    · simp only [insertDescBy, if_neg hxy]
      refine List.pairwise_cons.mpr ⟨?_, h⟩
      intro z hz
      rcases List.mem_cons.mp hz with rfl | hzys
      · exact le_of_not_lt hxy
      · exact le_trans (hy z hzys) (le_of_not_lt hxy)

theorem insertDescBy_filter_key (key : α → String) (x : α) (l : List α)
    (k : String) :
    (insertDescBy key x l).filter (fun t => key t = k) =
      if key x = k then x :: l.filter (fun t => key t = k)
      else l.filter (fun t => key t = k) := by
  induction l with
  | nil =>
    by_cases hk : key x = k <;> simp [insertDescBy, List.filter_cons, hk]
  | cons y ys ih =>
    by_cases hxy : key x < key y
    · simp only [insertDescBy, if_pos hxy, List.filter_cons, ih]
      by_cases hk : key x = k
      · have hyk : ¬ (key y = k) := fun hc => (ne_of_lt hxy) (hk.trans hc.symm)
        simp [hk, hyk]
      · by_cases hyk : key y = k <;> simp [hk, hyk]
    · simp only [insertDescBy, if_neg hxy, List.filter_cons]
      by_cases hk : key x = k <;> by_cases hyk : key y = k <;> simp [hk, hyk]

theorem sortByKeyDesc_stable (key : α → String) (l : List α) (k : String) :
    (sortByKeyDesc key l).filter (fun t => key t = k) =
      l.filter (fun t => key t = k) := by
  induction l with
  | nil => rfl
  | cons x xs ih =>
    by_cases hk : key x = k
    · simp [sortByKeyDesc, insertDescBy_filter_key, hk, List.filter_cons, ih]
    · simp [sortByKeyDesc, insertDescBy_filter_key, hk, List.filter_cons, ih]

theorem sortByKeyDesc_sorted (key : α → String) (l : List α) :
    (sortByKeyDesc key l).Pairwise (fun a b => key b ≤ key a) := by
  induction l with
  | nil => simp [sortByKeyDesc]
  | cons x xs ih => exact insertDescBy_sorted key x _ ih

/-- C5: the merged transaction list is sorted by `recordDate` descending
under lexicographic string comparison (a total order), the output is a
permutation of the input, and the sort is stable: transactions with equal
`recordDate` keep their input (account-processing) order. -/
theorem c5_sort_desc_stable (ts : List Dict)
    (_hstr : stringDateKeys ts = true) :
    (sortTransactionsDesc ts).Perm ts ∧
    (sortTransactionsDesc ts).Pairwise
      (fun a b => recordDateKey b ≤ recordDateKey a) ∧
    (∀ a b : Dict,
      recordDateKey a ≤ recordDateKey b ∨ recordDateKey b ≤ recordDateKey a) ∧
    (∀ k : String,
      (sortTransactionsDesc ts).filter (fun t => recordDateKey t = k) =
        ts.filter (fun t => recordDateKey t = k)) :=
  ⟨sortByKeyDesc_perm recordDateKey ts,
   sortByKeyDesc_sorted recordDateKey ts,
   fun a b => le_total (recordDateKey a) (recordDateKey b),
   fun k => sortByKeyDesc_stable recordDateKey ts k⟩

/-- Transactions used to witness `c5_sort_desc_stable`. -/
def c5Sample : List Dict :=
  [[("recordDate", PyVal.str "2026-10-01T00:00:00Z")],
   [("recordDate", PyVal.str "2026-10-05T00:00:00Z")],
   [("recordDate", PyVal.str "2026-10-01T00:00:00Z"), ("tag", PyVal.num 1)]]

theorem c5_witness_applied :
    (sortTransactionsDesc c5Sample).Perm c5Sample ∧
    (sortTransactionsDesc c5Sample).Pairwise
      (fun a b => recordDateKey b ≤ recordDateKey a) ∧
    (∀ a b : Dict,
      recordDateKey a ≤ recordDateKey b ∨ recordDateKey b ≤ recordDateKey a) ∧
    (∀ k : String,
      (sortTransactionsDesc c5Sample).filter (fun t => recordDateKey t = k) =
        c5Sample.filter (fun t => recordDateKey t = k)) :=
  c5_sort_desc_stable c5Sample rfl

/-! ## Pagination loops (claim C3)

`_fetch_accounts` (api.py lines 89-106) and `_fetch_records_for_account`
(api.py lines 108-138) run the same loop: request a page at the current
offset (starting from 0), append `payload.get(<items key>, [])` to the
accumulator, stop when `payload.get("nextOffset")` is `None` (key absent or
JSON null), otherwise continue at `int(nextOffset)`.

The upstream server is modelled as a function from the requested offset to
the JSON payload it answers with; the loop is given fuel and returns `none`
when the fuel runs out before the server signals the final page. -/

/-- `payload.get(key, [])` followed by `list.extend`: the page's item list
(a present non-list value would not be a valid page; it contributes
nothing). -/
def pageItems (payload : Dict) (key : String) : List PyVal :=
  match dget payload key with
  | some (.list xs) => xs
  | _ => []

/-- `payload.get("nextOffset")` and the `int(...)` conversion: `none` when
the key is absent or its value is JSON null (both read back as Python
`None`), otherwise the numeric value truncated to an integer. -/
def pageNextOffset (payload : Dict) : Option ℤ :=
  match dget payload "nextOffset" with
  | some (.num q) => some ⌊q⌋
  | _ => Option.none

/-- The pagination loop shared by `_fetch_accounts` and
`_fetch_records_for_account`: `key` is `"accounts"` or `"records"`,
`server o` is the payload the upstream API returns for offset `o`. -/
def fetchPaginated (server : ℤ → Dict) (key : String) :
    Nat → ℤ → Option (List PyVal)
  | 0, _ => Option.none
  | fuel + 1, offset =>
    let payload := server offset
    match pageNextOffset payload with
    | Option.none => some (pageItems payload key)
    | some n => (fetchPaginated server key fuel n).map
        (fun rest => pageItems payload key ++ rest)

/-- `_fetch_accounts` (api.py lines 89-106): paginate the accounts
collection starting at offset 0. -/
def fetchAccounts (server : ℤ → Dict) (fuel : Nat) : Option (List PyVal) :=
  fetchPaginated server "accounts" fuel 0

/-- `_fetch_records_for_account` (api.py lines 108-138): paginate the
records collection starting at offset 0 (account id and date bounds are
fixed query parameters of `server`). -/
def fetchRecordsForAccount (server : ℤ → Dict) (fuel : Nat) :
    Option (List PyVal) :=
  fetchPaginated server "records" fuel 0

/-- The chain of offsets a terminating pagination visits: each page's
`nextOffset` names the next requested offset, and only the last visited
page has an absent/null `nextOffset`. -/
inductive OffsetChain (server : ℤ → Dict) : ℤ → List ℤ → Prop
  | last (o : ℤ) (h : pageNextOffset (server o) = Option.none) :
      OffsetChain server o [o]
  | step (o o' : ℤ) (os : List ℤ)
      (h : pageNextOffset (server o) = some o')
      (hrest : OffsetChain server o' os) :
      OffsetChain server o (o :: os)

theorem fetchPaginated_of_chain (server : ℤ → Dict) (key : String)
    (start : ℤ) (os : List ℤ) (h : OffsetChain server start os) :
    fetchPaginated server key os.length start =
      some (os.flatMap (fun o => pageItems (server o) key)) := by
  induction h with
  | last o ho =>
    simp [fetchPaginated, ho]
  | step o o' os' ho hrest ih =>
    simp [fetchPaginated, ho, ih]

theorem fetchPaginated_chain_exists (server : ℤ → Dict) (key : String) :
    ∀ (fuel : Nat) (start : ℤ) (r : List PyVal),
      fetchPaginated server key fuel start = some r →
      ∃ os : List ℤ, OffsetChain server start os ∧ os.length ≤ fuel ∧
        r = os.flatMap (fun o => pageItems (server o) key) := by
  intro fuel
  induction fuel with
  | zero => intro start r h; simp [fetchPaginated] at h
  | succ n ih =>
    intro start r h
    by_cases hnext : pageNextOffset (server start) = Option.none
    · refine ⟨[start], OffsetChain.last start hnext, by simp, ?_⟩
      simp [fetchPaginated, hnext] at h
      simp [← h]
    · rcases Option.ne_none_iff_exists'.mp hnext with ⟨o', ho'⟩
      simp [fetchPaginated, ho'] at h
      rcases h with ⟨rest, hrest, hr⟩
      rcases ih o' rest hrest with ⟨os, hos, hlen, hflat⟩
      refine ⟨start :: os, OffsetChain.step start o' os ho' hos, ?_, ?_⟩
      · simpa using Nat.succ_le_succ hlen
      · simp [← hr, hflat]

/-- C3: a pagination run succeeds exactly along a chain of offsets in which
every page names the next offset and only the last page's `nextOffset` is
absent/null; the returned list is the concatenation of the visited pages in
request order (within-page order preserved by concatenation). -/
theorem c3_pagination (server : ℤ → Dict) (key : String) :
    (∀ (start : ℤ) (os : List ℤ), OffsetChain server start os →
      fetchPaginated server key os.length start =
        some (os.flatMap (fun o => pageItems (server o) key))) ∧
    (∀ (fuel : Nat) (start : ℤ) (r : List PyVal),
      fetchPaginated server key fuel start = some r →
      ∃ os : List ℤ, OffsetChain server start os ∧ os.length ≤ fuel ∧
        r = os.flatMap (fun o => pageItems (server o) key)) :=
  ⟨fun start os h => fetchPaginated_of_chain server key start os h,
   fetchPaginated_chain_exists server key⟩

/-- A two-page accounts server used to witness `c3_pagination`: offset 0
answers two accounts and `nextOffset: 2`; offset 2 answers one account and
`nextOffset: null`. -/
def c3Server : ℤ → Dict := fun o =>
  if o = 0 then
    [("accounts", PyVal.list [PyVal.str "a1", PyVal.str "a2"]),
     ("nextOffset", PyVal.num 2)]
  else if o = 2 then
    [("accounts", PyVal.list [PyVal.str "a3"]), ("nextOffset", PyVal.none)]
  else
    []

theorem c3_witness_applied :
    fetchPaginated c3Server "accounts" 2 0 =
      some [PyVal.str "a1", PyVal.str "a2", PyVal.str "a3"] := by
  have hchain : OffsetChain c3Server 0 [0, 2] :=
    OffsetChain.step 0 2 [2] (by rfl)
      (OffsetChain.last 2 (by rfl))
  have h := (c3_pagination c3Server "accounts").1 0 [0, 2] hchain
  simpa using h

/-! ## Request outcome classification (claims C4 and C8)

`_request_json` (api.py lines 140-188): a `ClientError` or `TimeoutError`
raised by the transport becomes `BudgetBakersApiError`; once a response is
received, status 401 raises `BudgetBakersAuthError`, status 429 raises
`BudgetBakersRateLimitError` carrying a parsed `Retry-After` header,
`response.raise_for_status()` turns any status of 400 and above into
`BudgetBakersApiError`, and a body that does not parse to a JSON object
also raises `BudgetBakersApiError`; otherwise the parsed object is
returned. -/

/-- The error taxonomy of api.py. -/
inductive ReqError where
  | auth : ReqError
  | rateLimit (retryAfter : Option Nat) : ReqError
  | api : ReqError

/-- Outcome of a single HTTP attempt as `_request_json` observes it:
a transport failure before any response, a timeout, or a delivered
response with its status, optional `Retry-After` header, and body
(`some v` when the body parses as JSON value `v`, `none` when it does
not parse). -/
inductive HttpOutcome where
  | netError : HttpOutcome
  | timeoutErr : HttpOutcome
  | response (status : Nat) (retryAfter : Option String)
      (body : Option PyVal) : HttpOutcome

/-- Decimal digits read as a natural number (`int(...)` on an all-digit
string). -/
def digitsToNat (cs : List Char) : Nat :=
  cs.foldl (fun n c => n * 10 + (c.toNat - 48)) 0

/-- api.py line 167:
`int(retry_after_raw) if retry_after_raw and retry_after_raw.isdigit() else None`
(a Python string is truthy iff nonempty; `isdigit` demands a nonempty
all-digit string). -/
def parseRetryAfter : Option String → Option Nat
  | some s =>
    if !s.data.isEmpty && s.data.all (fun c => c.isDigit) then
      some (digitsToNat s.data)
    else Option.none
  | Option.none => Option.none

/-- api.py lines 174-177: the parsed body is returned when it is a JSON
object (`isinstance(payload, dict)`), otherwise
`BudgetBakersApiError("Unexpected API response format")`; a body that does
not parse at all also surfaces as a client error, hence `ApiError`. -/
def parsePayload : Option PyVal → Except ReqError Dict
  | some (.dict d) => .ok d
  | _ => .error .api

/-- Classification of a delivered response (api.py lines 162-177). -/
def classifyResponse (status : Nat) (retryAfter : Option String)
    (body : Option PyVal) : Except ReqError Dict :=
  if status = 401 then .error .auth
  else if status = 429 then .error (.rateLimit (parseRetryAfter retryAfter))
  else if 400 ≤ status then .error .api
  else parsePayload body

/-- The full `_request_json` outcome classification (api.py lines
153-188). -/
def requestJsonResult : HttpOutcome → Except ReqError Dict
  | .netError => .error .api
  | .timeoutErr => .error .api
  | .response st ra body => classifyResponse st ra body

/-- The classification exactly as claim C4 words it, for comparison: in
particular, it sends every non-2xx status other than 401 and 429 to
`ApiError`. -/
def claimedClassify : HttpOutcome → Except ReqError Dict
  | .netError => .error .api
  | .timeoutErr => .error .api
  | .response st ra body =>
    if st = 401 then .error .auth
    else if st = 429 then .error (.rateLimit (parseRetryAfter ra))
    else if st < 200 ∨ 300 ≤ st then .error .api
    else parsePayload body

/-- C4 counterexample: a delivered 300 response with a JSON-object body is
returned as success by the code (`raise_for_status` only raises for
status ≥ 400), while the claim demands `ApiError` for every non-2xx
status. -/
theorem c4_counterexample :
    requestJsonResult
        (HttpOutcome.response 300 Option.none (some (PyVal.dict []))) =
      Except.ok ([] : Dict) ∧
    claimedClassify
        (HttpOutcome.response 300 Option.none (some (PyVal.dict []))) =
      Except.error ReqError.api ∧
    requestJsonResult
        (HttpOutcome.response 300 Option.none (some (PyVal.dict []))) ≠
      claimedClassify
        (HttpOutcome.response 300 Option.none (some (PyVal.dict []))) := by
  refine ⟨rfl, rfl, ?_⟩
  intro h
  rw [(rfl : requestJsonResult
        (HttpOutcome.response 300 Option.none (some (PyVal.dict []))) =
      Except.ok ([] : Dict))] at h
  exact Except.noConfusion h

/-- C4 (amended): every request outcome is classified into exactly one of
the three errors or success — 401 ⇒ `AuthError`; 429 ⇒ `RateLimitError`
with the `Retry-After` header parsed to an integer when nonempty and
all-digits and `None` otherwise; any status ≥ 400 other than 401/429,
a network failure, a timeout, or a body that is not a JSON object ⇒
`ApiError`; a delivered response with status < 400 (not only 2xx) and a
JSON-object body is returned as success. -/
theorem c4_classification_amended (o : HttpOutcome) :
    (o = .netError → requestJsonResult o = .error .api) ∧
    (o = .timeoutErr → requestJsonResult o = .error .api) ∧
    (∀ st ra body, o = .response st ra body →
      (st = 401 → requestJsonResult o = .error .auth) ∧
      (st = 429 →
        requestJsonResult o = .error (.rateLimit (parseRetryAfter ra))) ∧
      (st ≠ 401 → st ≠ 429 → 400 ≤ st →
        requestJsonResult o = .error .api) ∧
      (st ≠ 401 → st ≠ 429 → st < 400 → ∀ d, body = some (.dict d) →
        requestJsonResult o = .ok d) ∧
      (st ≠ 401 → st ≠ 429 → st < 400 → (∀ d, body ≠ some (.dict d)) →
        requestJsonResult o = .error .api)) ∧
    parseRetryAfter Option.none = Option.none ∧
    (∀ s : String, (!s.data.isEmpty && s.data.all (fun c => c.isDigit)) = false →
      parseRetryAfter (some s) = Option.none) ∧
    (∀ s : String, (!s.data.isEmpty && s.data.all (fun c => c.isDigit)) = true →
      parseRetryAfter (some s) = some (digitsToNat s.data)) := by
  refine ⟨?_, ?_, ?_, rfl, ?_, ?_⟩
  · rintro rfl; rfl
  · rintro rfl; rfl
  · rintro st ra body rfl
    have hres : requestJsonResult (HttpOutcome.response st ra body) =
        classifyResponse st ra body := rfl
    refine ⟨?_, ?_, ?_, ?_, ?_⟩
    · rintro rfl; rfl
    · rintro rfl; rfl
    · intro h401 h429 h400
      rw [hres, classifyResponse, if_neg h401, if_neg h429, if_pos h400]
    · rintro h401 h429 h400 d rfl
      rw [hres, classifyResponse, if_neg h401, if_neg h429,
        if_neg (Nat.not_le.mpr h400)]
      rfl
    · intro h401 h429 h400 hbody
      rw [hres, classifyResponse, if_neg h401, if_neg h429,
        if_neg (Nat.not_le.mpr h400)]
      cases body with
      | none => rfl
      | some v =>
        cases v with
        | dict d => exact absurd rfl (hbody d)
        | none => rfl
        | bool b => rfl
        | num q => rfl
        | str s => rfl
        | list xs => rfl
  · intro s hs; simp [parseRetryAfter, hs]
  · intro s hs; simp [parseRetryAfter, hs]

theorem c4_witness_applied :
    requestJsonResult
        (HttpOutcome.response 429 (some "5") (some (PyVal.dict []))) =
      Except.error (ReqError.rateLimit (some 5)) := by
  have h :=
    ((c4_classification_amended
        (HttpOutcome.response 429 (some "5") (some (PyVal.dict [])))).2.2.1
      429 (some "5") (some (PyVal.dict [])) rfl).2.1 rfl
  simpa using h

/-! ## The per-fetch request counter (claim C8)

api.py line 62 resets `self._requests_made` to 0 at the start of the
top-level fetch; api.py line 160 increments it — but the increment sits
inside the `async with` block, after a response has been received, so an
attempt that fails with a network error or timeout never reaches it. -/

/-- One `_request_json` call threaded through the counter: the counter is
incremented exactly when a response was received (api.py line 160). -/
def requestStep (o : HttpOutcome) (counter : Nat) :
    Nat × Except ReqError Dict :=
  match o with
  | .netError => (counter, .error .api)
  | .timeoutErr => (counter, .error .api)
  | .response st ra body => (counter + 1, classifyResponse st ra body)

/-- The HTTP attempts of one top-level fetch, run in order against the
counter; the fetch aborts at the first attempt that raises (every error
propagates out of the fetch). -/
def runRequests : List HttpOutcome → Nat → Nat
  | [], c => c
  | o :: os, c =>
    match requestStep o c with
    | (c', .error _) => c'
    | (c', .ok _) => runRequests os c'

/-- `get_last_week_transactions_all_active_accounts` first resets the
counter to zero (api.py line 62), then performs its round trips; the
initial counter value is discarded. -/
def fetchRequestsMade (outcomes : List HttpOutcome) (_initial : Nat) : Nat :=
  runRequests outcomes 0

/-- Whether an attempt with this outcome raises (aborting the fetch). -/
def isErrorOutcome (o : HttpOutcome) : Bool :=
  match requestJsonResult o with
  | .error _ => true
  | .ok _ => false

/-- The attempts actually performed during the fetch: the prefix of the
planned round trips up to and including the first one that raises. -/
def attempted : List HttpOutcome → List HttpOutcome
  | [] => []
  | o :: os => if isErrorOutcome o then [o] else o :: attempted os

/-- Whether an attempt got as far as receiving an HTTP response. -/
def gotResponse : HttpOutcome → Bool
  | .response _ _ _ => true
  | _ => false

/-- C8 counterexample: a fetch whose single attempt fails with a network
error leaves the counter at 0, while the claim demands that every
attempted round trip — including network failures — be counted. -/
theorem c8_counterexample :
    fetchRequestsMade [HttpOutcome.netError] 5 = 0 ∧
    (attempted [HttpOutcome.netError]).length = 1 ∧
    fetchRequestsMade [HttpOutcome.netError] 5 ≠
      (attempted [HttpOutcome.netError]).length := by
  refine ⟨rfl, rfl, ?_⟩
  intro h
  exact Nat.noConfusion h

theorem runRequests_counts (outcomes : List HttpOutcome) :
    ∀ c : Nat, runRequests outcomes c =
      c + ((attempted outcomes).filter gotResponse).length := by
  induction outcomes with
  | nil => intro c; simp [runRequests, attempted]
  | cons o os ih =>
    intro c
    cases o with
    | netError =>
      simp [runRequests, requestStep, attempted, isErrorOutcome,
        requestJsonResult, gotResponse, List.filter]
    | timeoutErr =>
      simp [runRequests, requestStep, attempted, isErrorOutcome,
        requestJsonResult, gotResponse, List.filter]
    | response st ra body =>
      cases hcl : classifyResponse st ra body with
      | error e =>
        simp [runRequests, requestStep, attempted, isErrorOutcome,
          requestJsonResult, hcl, gotResponse, List.filter]
      | ok d =>
        have hstep : runRequests (HttpOutcome.response st ra body :: os) c =
            runRequests os (c + 1) := by
          simp [runRequests, requestStep, hcl]
        have herr : isErrorOutcome (HttpOutcome.response st ra body) = false := by
          simp [isErrorOutcome, requestJsonResult, hcl]
        rw [hstep, ih (c + 1)]
        simp [attempted, herr, List.filter_cons, gotResponse]
        omega

/-- C8-amended: `requests_made` is reset at the start of the fetch
(independent of the counter's previous value) and, after the fetch, equals
the number of attempted round trips that received an HTTP response;
attempts aborted by a network error or timeout are not counted. -/
theorem c8_requests_made_amended (outcomes : List HttpOutcome)
    (initial initial' : Nat) :
    fetchRequestsMade outcomes initial =
      ((attempted outcomes).filter gotResponse).length ∧
    fetchRequestsMade outcomes initial = fetchRequestsMade outcomes initial' := by
  constructor
  · simpa using runRequests_counts outcomes 0
  · rfl

/-! ## The 30-day PLN sum (claim C6)

coordinator.py lines 91-105, `_calculate_transaction_sum_30_days`:

    total = 0.0
    for transaction in transactions:
        base_amount = transaction.get("baseAmount") or {}
        if base_amount.get("currencyCode") != "PLN": continue
        value = base_amount.get("value")
        if not isinstance(value, (int, float)): continue
        total += abs(float(value))
    return round(total, 2)

Amounts are modelled as exact rationals.  `round(·, 2)` is modelled as
exact rounding to a multiple of 1/100. -/

/-- `transaction.get("baseAmount") or {}`: the base-amount dict, `{}` when
the key is absent or its value falsy.  (A truthy non-dict value would make
the following `.get` raise `AttributeError`; such payloads are outside the
model.) -/
def baseAmountOf (t : Dict) : Dict :=
  match dget t "baseAmount" with
  | some (.dict d) => d
  | _ => []

/-- `isinstance(value, (int, float))`; Python's `bool` is a subclass of
`int`, so booleans pass the check. -/
def isNumeric : PyVal → Bool
  | .num _ => true
  | .bool _ => true
  | _ => false

/-- `float(value)` on a value accepted by `isNumeric`. -/
def toRat : PyVal → ℚ
  | .num q => q
  | .bool b => if b then 1 else 0
  | _ => 0

/-- `round(q, 2)`: rounding to two decimal places, in exact arithmetic. -/
def round2 (q : ℚ) : ℚ := (round (q * 100) : ℤ) / 100

/-- The accumulation loop of `_calculate_transaction_sum_30_days`:
skip a transaction unless its base amount is in PLN and its value numeric,
otherwise add the absolute value. -/
def sumPln30Loop : List Dict → ℚ → ℚ
  | [], total => total
  | t :: ts, total =>
    if pyEqStr (dget (baseAmountOf t) "currencyCode") "PLN" then
      match dget (baseAmountOf t) "value" with
      | some v =>
        if isNumeric v then sumPln30Loop ts (total + |toRat v|)
        else sumPln30Loop ts total
      | Option.none => sumPln30Loop ts total
    else sumPln30Loop ts total

/-- `_calculate_transaction_sum_30_days` (coordinator.py lines 91-105). -/
def calculateTransactionSum30Days (ts : List Dict) : ℚ :=
  round2 (sumPln30Loop ts 0)

/-- The contribution of one transaction to the PLN sum, as the claim words
it: `abs(value)` when `baseAmount.currencyCode == "PLN"` and
`baseAmount.value` is numeric, nothing otherwise. -/
def plnContribution (t : Dict) : Option ℚ :=
  if pyEqStr (dget (baseAmountOf t) "currencyCode") "PLN" then
    match dget (baseAmountOf t) "value" with
    | some v => if isNumeric v then some |toRat v| else Option.none
    | Option.none => Option.none
  else Option.none

theorem sumPln30Loop_eq (ts : List Dict) :
    ∀ total : ℚ, sumPln30Loop ts total =
      total + (ts.filterMap plnContribution).sum := by
  induction ts with
  | nil => intro total; simp [sumPln30Loop]
  | cons t ts ih =>
    intro total
    by_cases hc : pyEqStr (dget (baseAmountOf t) "currencyCode") "PLN"
    · cases hv : dget (baseAmountOf t) "value" with
      | none =>
        simp [sumPln30Loop, plnContribution, hc, hv, List.filterMap_cons, ih]
      | some v =>
        by_cases hn : isNumeric v
        · simp [sumPln30Loop, plnContribution, hc, hv, hn,
            List.filterMap_cons, ih]
          ring
        · simp [sumPln30Loop, plnContribution, hc, hv, hn,
            List.filterMap_cons, ih]
    · simp [sumPln30Loop, plnContribution, hc, List.filterMap_cons, ih]

/-- C6: the 30-day sum is the rounded sum of `abs(value)` over exactly the
PLN-denominated, numeric-valued transactions, and it is invariant under
reordering of the transaction list. -/
theorem c6_sum_30_days (ts ts' : List Dict) (hperm : ts.Perm ts') :
    calculateTransactionSum30Days ts =
      round2 ((ts.filterMap plnContribution).sum) ∧
    calculateTransactionSum30Days ts = calculateTransactionSum30Days ts' := by
  constructor
  · simp [calculateTransactionSum30Days, sumPln30Loop_eq]
  · simp only [calculateTransactionSum30Days, sumPln30Loop_eq]
    rw [(hperm.filterMap plnContribution).sum_eq]

/-- Transactions used to witness `c6_sum_30_days`: a PLN expense of -42.5
and a USD transaction, in both orders. -/
def c6Sample : List Dict :=
  [[("recordType", PyVal.str "expense"),
    ("baseAmount", PyVal.dict
      [("currencyCode", PyVal.str "PLN"), ("value", PyVal.num (-85/2))])],
   [("baseAmount", PyVal.dict
      [("currencyCode", PyVal.str "USD"), ("value", PyVal.num 10)])]]

/-- `c6Sample` reordered. -/
def c6SampleRev : List Dict :=
  [[("baseAmount", PyVal.dict
      [("currencyCode", PyVal.str "USD"), ("value", PyVal.num 10)])],
   [("recordType", PyVal.str "expense"),
    ("baseAmount", PyVal.dict
      [("currencyCode", PyVal.str "PLN"), ("value", PyVal.num (-85/2))])]]

theorem c6_witness_applied :
    calculateTransactionSum30Days c6Sample =
      round2 ((c6Sample.filterMap plnContribution).sum) ∧
    calculateTransactionSum30Days c6Sample =
      calculateTransactionSum30Days c6SampleRev :=
  c6_sum_30_days c6Sample c6SampleRev (List.Perm.swap _ _ _)

/-! ## The Spent-in-PLN sensor (claim C10)

sensor.py lines 126-143 (`_calculate_total_spent_pln`) and lines 119-123
(`native_value`): the same PLN accumulation further restricted to records
with `recordType == "expense"`, rounded to two decimals by the sensor. -/

/-- The accumulation loop of `_calculate_total_spent_pln` (sensor.py lines
126-143): skip non-expense records, then apply the PLN/numeric filter. -/
def totalSpentPlnLoop : List Dict → ℚ → ℚ
  | [], total => total
  | t :: ts, total =>
    if pyEqStr (dget t "recordType") "expense" then
      if pyEqStr (dget (baseAmountOf t) "currencyCode") "PLN" then
        match dget (baseAmountOf t) "value" with
        | some v =>
          if isNumeric v then totalSpentPlnLoop ts (total + |toRat v|)
          else totalSpentPlnLoop ts total
        | Option.none => totalSpentPlnLoop ts total
      else totalSpentPlnLoop ts total
    else totalSpentPlnLoop ts total

/-- `_calculate_total_spent_pln`. -/
def calculateTotalSpentPln (ts : List Dict) : ℚ := totalSpentPlnLoop ts 0

/-- `BudgetBakersSpentPlnSensor.native_value` (sensor.py lines 119-123):
`round(_calculate_total_spent_pln(transactions), 2)`. -/
def spentPlnNativeValue (ts : List Dict) : ℚ :=
  round2 (calculateTotalSpentPln ts)

/-- One transaction's contribution to the expense sum, as the claim words
it: `abs(baseAmount.value)` when `recordType == "expense"`,
`baseAmount.currencyCode == "PLN"` and the value is numeric. -/
def expensePlnContribution (t : Dict) : Option ℚ :=
  if pyEqStr (dget t "recordType") "expense" then plnContribution t
  else Option.none

theorem totalSpentPlnLoop_eq (ts : List Dict) :
    ∀ total : ℚ, totalSpentPlnLoop ts total =
      total + (ts.filterMap expensePlnContribution).sum := by
  induction ts with
  | nil => intro total; simp [totalSpentPlnLoop]
  | cons t ts ih =>
    intro total
    by_cases he : pyEqStr (dget t "recordType") "expense"
    · by_cases hc : pyEqStr (dget (baseAmountOf t) "currencyCode") "PLN"
      · cases hv : dget (baseAmountOf t) "value" with
        | none =>
          simp [totalSpentPlnLoop, expensePlnContribution, plnContribution,
            he, hc, hv, List.filterMap_cons, ih]
        | some v =>
          by_cases hn : isNumeric v
          · simp [totalSpentPlnLoop, expensePlnContribution, plnContribution,
              he, hc, hv, hn, List.filterMap_cons, ih]
            ring
          · simp [totalSpentPlnLoop, expensePlnContribution, plnContribution,
              he, hc, hv, hn, List.filterMap_cons, ih]
      · simp [totalSpentPlnLoop, expensePlnContribution, plnContribution,
          he, hc, List.filterMap_cons, ih]
    · simp [totalSpentPlnLoop, expensePlnContribution, he,
        List.filterMap_cons, ih]

/-- The scenario transaction of the claim:
`{recordType: "expense", baseAmount: {currencyCode: "PLN", value: -42.5}}`. -/
def expensePlnTx : Dict :=
  [("recordType", PyVal.str "expense"),
   ("baseAmount", PyVal.dict
     [("currencyCode", PyVal.str "PLN"), ("value", PyVal.num (-85/2))])]

/-- The scenario transaction with a USD base amount. -/
def expenseUsdTx : Dict :=
  [("recordType", PyVal.str "expense"),
   ("baseAmount", PyVal.dict
     [("currencyCode", PyVal.str "USD"), ("value", PyVal.num (-85/2))])]

/-- C10: the sensor value is the rounded sum of `abs(baseAmount.value)`
over exactly the expense/PLN/numeric records; the claim's PLN expense of
-42.5 contributes 42.5 to the sum, and the USD transaction contributes
nothing. -/
theorem c10_spent_pln_sensor (ts : List Dict) :
    spentPlnNativeValue ts =
      round2 ((ts.filterMap expensePlnContribution).sum) ∧
    calculateTotalSpentPln (expensePlnTx :: ts) =
      85 / 2 + calculateTotalSpentPln ts ∧
    calculateTotalSpentPln (expenseUsdTx :: ts) = calculateTotalSpentPln ts := by
  refine ⟨?_, ?_, ?_⟩
  · simp [spentPlnNativeValue, calculateTotalSpentPln, totalSpentPlnLoop_eq]
  · simp only [calculateTotalSpentPln, totalSpentPlnLoop_eq,
      List.filterMap_cons]
    have h : expensePlnContribution expensePlnTx = some (85 / 2) := by
      simp [expensePlnContribution, plnContribution, expensePlnTx,
        baseAmountOf, dget, pyEqStr, isNumeric, toRat]
      norm_num [abs_of_nonpos]
    rw [h]
    simp
  · simp only [calculateTotalSpentPln, totalSpentPlnLoop_eq,
      List.filterMap_cons]
    have h : expensePlnContribution expenseUsdTx = Option.none := by
      simp [expensePlnContribution, plnContribution, expenseUsdTx,
        baseAmountOf, dget, pyEqStr]
    rw [h]

/-! ## The 7-day reporting filter (claim C7)

coordinator.py lines 77-88 (`_is_record_on_or_after`) and 47-51: the
committed snapshot's transaction list keeps exactly the fetched
transactions whose `recordDate` is a string that
`datetime.fromisoformat(record_date.replace("Z", "+00:00"))` parses and
whose parsed instant is `>= now - 7 days`.  The library parser is
abstracted as a function `parse : String → Option ℤ` into instants;
`parse s = none` models a `ValueError`. -/

/-- `_is_record_on_or_after` (coordinator.py lines 77-88): `False` when
`recordDate` is absent or not a string, `False` when it fails to parse,
otherwise the comparison against the threshold. -/
def isRecordOnOrAfter (parse : String → Option ℤ) (threshold : ℤ)
    (t : Dict) : Bool :=
  match dget t "recordDate" with
  | some (.str s) =>
    match parse s with
    | some d => decide (threshold ≤ d)
    | Option.none => false
  | _ => false

/-- coordinator.py lines 47-51: the list comprehension filtering the
fetched transactions down to the reporting window. -/
def transactionsLast7Days (parse : String → Option ℤ) (threshold : ℤ)
    (ts : List Dict) : List Dict :=
  ts.filter (isRecordOnOrAfter parse threshold)

/-- The spec's wording of membership in the reporting window: the record
date is a string, it parses as a valid timestamp, and that timestamp is on
or after the threshold. -/
def inReportingWindow (parse : String → Option ℤ) (threshold : ℤ)
    (t : Dict) : Prop :=
  ∃ s d, dget t "recordDate" = some (PyVal.str s) ∧ parse s = some d ∧
    threshold ≤ d

theorem isRecordOnOrAfter_iff (parse : String → Option ℤ) (threshold : ℤ)
    (t : Dict) :
    isRecordOnOrAfter parse threshold t = true ↔
      inReportingWindow parse threshold t := by
  unfold isRecordOnOrAfter inReportingWindow
  cases hr : dget t "recordDate" with
  | none => simp
  | some v =>
    cases v with
    | str s =>
      cases hp : parse s with
      | none => simp [hp]
      | some d =>
        simp only [hp, decide_eq_true_eq]
        constructor
        · intro h; exact ⟨s, d, rfl, hp, h⟩
        · rintro ⟨s', d', hs', hp', hd'⟩
          rw [Option.some.injEq, PyVal.str.injEq] at hs'
          subst hs'
          rw [hp] at hp'
          rw [Option.some.injEq] at hp'
          subst hp'
          exact hd'
    | none => simp
    | bool b => simp
    | num q => simp
    | list xs => simp
    | dict d => simp

/-- C7: the snapshot's 7-day list is exactly the subsequence of the fetched
transactions whose `recordDate` is a string parsing to an instant on or
after the threshold; transactions with a missing, non-string or
unparseable `recordDate` are never included. -/
theorem c7_reporting_window (parse : String → Option ℤ) (threshold : ℤ)
    (ts : List Dict) :
    (transactionsLast7Days parse threshold ts).Sublist ts ∧
    (∀ t, t ∈ transactionsLast7Days parse threshold ts ↔
      t ∈ ts ∧ inReportingWindow parse threshold t) ∧
    (∀ t, ¬ inReportingWindow parse threshold t →
      t ∉ transactionsLast7Days parse threshold ts) := by
  refine ⟨List.filter_sublist ts, fun t => ?_, fun t hbad hmem => ?_⟩
  · rw [transactionsLast7Days, List.mem_filter,
      isRecordOnOrAfter_iff parse threshold t]
  · rw [transactionsLast7Days, List.mem_filter,
      isRecordOnOrAfter_iff parse threshold t] at hmem
    exact hbad hmem.2

/-- A concrete parser for the witness: the only valid date strings are
"d10" and "d3", mapping to instants 10 and 3. -/
def c7Parse : String → Option ℤ := fun s =>
  if s = "d10" then some 10 else if s = "d3" then some 3 else Option.none

/-- Fetched transactions for the witness: one inside the window, one
before it, one with an unparseable date, one with a non-string date and
one with no date. -/
def c7Sample : List Dict :=
  [[("recordDate", PyVal.str "d10")],
   [("recordDate", PyVal.str "d3")],
   [("recordDate", PyVal.str "garbage")],
   [("recordDate", PyVal.num 5)],
   [("amount", PyVal.num 1)]]

theorem c7_witness_applied :
    (transactionsLast7Days c7Parse 5 c7Sample).Sublist c7Sample ∧
    (∀ t, t ∈ transactionsLast7Days c7Parse 5 c7Sample ↔
      t ∈ c7Sample ∧ inReportingWindow c7Parse 5 t) ∧
    (∀ t, ¬ inReportingWindow c7Parse 5 t →
      t ∉ transactionsLast7Days c7Parse 5 c7Sample) :=
  c7_reporting_window c7Parse 5 c7Sample

/-! ## The fetch window and the coordinator's call (claim C1)

coordinator.py line 46 invokes
`self._api_client.get_transactions_all_active_accounts(days=30)`, but
`BudgetBakersApiClient` (api.py) defines no method of that name: its only
fetch method is `get_last_week_transactions_all_active_accounts`, which
takes no window argument and hard-codes
`start_utc = now_utc - timedelta(days=7)` (api.py lines 68-69).  Every
refresh therefore raises `AttributeError`, and no 30-day window is ever
fetched. -/

/-- The attributes `BudgetBakersApiClient` defines (api.py lines 40-188). -/
def apiClientMethods : List String :=
  ["requests_made", "validate_token",
   "get_last_week_transactions_all_active_accounts",
   "_fetch_accounts", "_fetch_records_for_account", "_request_json"]

/-- The method name the coordinator invokes on the client with `days=30`
(coordinator.py line 46). -/
def coordinatorFetchMethod : String := "get_transactions_all_active_accounts"

/-- The days subtracted from `now` by the client's fetch
(api.py line 69: `start_utc = now_utc - timedelta(days=7)`). -/
def fetchWindowDays : Nat := 7

/-- api.py line 69: the window start, in seconds. -/
def fetchWindowStart (now : ℤ) : ℤ := now - fetchWindowDays * 86400

/-- api.py line 68: the window end is the current instant. -/
def fetchWindowEnd (now : ℤ) : ℤ := now

/-- C1 (code bug): the coordinator's call names a method the client does
not define, and the client's only fetch method computes a 7-day window,
not the 30-day window the claim describes. -/
theorem c1_window_mismatch :
    coordinatorFetchMethod ∉ apiClientMethods ∧
    fetchWindowDays = 7 ∧ fetchWindowDays ≠ 30 ∧
    ∀ now : ℤ, fetchWindowStart now = fetchWindowEnd now - 7 * 86400 ∧
      fetchWindowStart now ≠ fetchWindowEnd now - 30 * 86400 := by
  refine ⟨by decide, rfl, by decide, fun now => ⟨rfl, fun h => ?_⟩⟩
  simp only [fetchWindowStart, fetchWindowEnd, fetchWindowDays] at h
  omega

end BudgetBakers
